import Mathlib

/-!
# Verification of the Vulkan bootstrap and format-translation layer

A shallow embedding of `src/compositor/src/vulkan/mod.rs` (capability
enumeration, `InstanceBuilder::build`, the `Instance` handle and its
reference-counted destruction) and of
`src/compositor/src/vulkan/renderer/format.rs` (the `format_tables!`
macro expansion: `fourcc_to_vk` and `wl_shm_to_vk`), together with
theorems settling the specification claims about them.

Native Vulkan runtime calls (`enumerate_instance_layer_properties`,
`enumerate_instance_extension_properties`, `create_instance`) are
effectful FFI calls; they enter the embedding as explicit parameters
holding the native call's outcome (`Except VkResult …`).  The
`cfg(target_endian = "little")` guard on the `PACK32` table rows enters
as an explicit `littleEndian : Bool` parameter: the Rust compiler keeps
those match arms exactly when the target is little-endian.
-/

/-! ## Format tables (`renderer/format.rs`) -/

/-- The DRM fourcc codes (`smithay::backend::allocator::Fourcc`) appearing
in the `format_tables!` invocation, plus representative codes of the real
`Fourcc` enumeration that have no table entry (`C8`, `Rgb565`, `Nv12`,
`Yuyv`, `Argb2101010`) so that the catch-all `_ => None` arm is part of
the model. -/
inductive Fourcc where
  | Argb8888
  | Xrgb8888
  | Abgr8888
  | Xbgr8888
  | Rgba8888
  | Rgbx8888
  | Bgr888
  | Rgb888
  | R8
  | Gr88
  | Abgr16161616f
  | Xbgr16161616f
  | C8
  | Rgb565
  | Nv12
  | Yuyv
  | Argb2101010
  deriving DecidableEq, Repr

/-- The `ash::vk::Format` values appearing in the table. -/
inductive VkFormat where
  | B8G8R8A8_SRGB
  | R8G8B8A8_SRGB
  | A8B8G8R8_SRGB_PACK32
  | R8G8B8_SRGB
  | B8G8R8_SRGB
  | R8_SRGB
  | R8G8_SRGB
  | R16G16B16A16_SFLOAT
  deriving DecidableEq, Repr

/-- `fourcc_to_vk` as expanded from `format_tables!`.  Each arm returns
`Some((Format::…, alpha))` where `alpha` is the table row's `alpha:`
field (whether the fourcc format carries an alpha channel).  The
`Rgba8888`/`Rgbx8888` arms are guarded by `cfg(target_endian = "little")`
in the source, so they exist only when `littleEndian` holds; otherwise
those codes fall through to the `_ => None` arm. -/
def fourcc_to_vk (littleEndian : Bool) : Fourcc → Option (VkFormat × Bool)
  | .Argb8888 => some (.B8G8R8A8_SRGB, true)
  | .Xrgb8888 => some (.B8G8R8A8_SRGB, false)
  | .Abgr8888 => some (.R8G8B8A8_SRGB, true)
  | .Xbgr8888 => some (.R8G8B8A8_SRGB, false)
  | .Rgba8888 => if littleEndian then some (.A8B8G8R8_SRGB_PACK32, true) else none
  | .Rgbx8888 => if littleEndian then some (.A8B8G8R8_SRGB_PACK32, false) else none
  | .Bgr888 => some (.R8G8B8_SRGB, false)
  | .Rgb888 => some (.B8G8R8_SRGB, false)
  | .R8 => some (.R8_SRGB, false)
  | .Gr88 => some (.R8G8_SRGB, false)
  | .Abgr16161616f => some (.R16G16B16A16_SFLOAT, true)
  | .Xbgr16161616f => some (.R16G16B16A16_SFLOAT, false)
  | _ => none

/-- The `wl_shm::Format` codes of the table (same identifier space as the
fourcc codes for the entries that occur, a distinct enumeration in the
source), with an unmapped representative. -/
inductive WlShmFormat where
  | Argb8888
  | Xrgb8888
  | Abgr8888
  | Xbgr8888
  | Rgba8888
  | Rgbx8888
  | Bgr888
  | Rgb888
  | R8
  | Gr88
  | Abgr16161616f
  | Xbgr16161616f
  | Yuyv
  deriving DecidableEq, Repr

/-- `wl_shm_to_vk` as expanded from `format_tables!`: identical rows to
`fourcc_to_vk`, keyed by the `wl_shm::Format` enumeration. -/
def wl_shm_to_vk (littleEndian : Bool) : WlShmFormat → Option (VkFormat × Bool)
  | .Argb8888 => some (.B8G8R8A8_SRGB, true)
  | .Xrgb8888 => some (.B8G8R8A8_SRGB, false)
  | .Abgr8888 => some (.R8G8B8A8_SRGB, true)
  | .Xbgr8888 => some (.R8G8B8A8_SRGB, false)
  | .Rgba8888 => if littleEndian then some (.A8B8G8R8_SRGB_PACK32, true) else none
  | .Rgbx8888 => if littleEndian then some (.A8B8G8R8_SRGB_PACK32, false) else none
  | .Bgr888 => some (.R8G8B8_SRGB, false)
  | .Rgb888 => some (.B8G8R8_SRGB, false)
  | .R8 => some (.R8_SRGB, false)
  | .Gr88 => some (.R8G8_SRGB, false)
  | .Abgr16161616f => some (.R16G16B16A16_SFLOAT, true)
  | .Xbgr16161616f => some (.R16G16B16A16_SFLOAT, false)
  | _ => none

/-! ## Instance bootstrap (`vulkan/mod.rs`) -/

/-- The `ash::vk::Result` error codes relevant to this layer: the two
out-of-memory codes the `From` impl singles out, plus representative
other native failure codes falling to the `err => Other(err)` arm. -/
inductive VkResult where
  | ERROR_OUT_OF_HOST_MEMORY
  | ERROR_OUT_OF_DEVICE_MEMORY
  | ERROR_INITIALIZATION_FAILED
  | ERROR_LAYER_NOT_PRESENT
  | ERROR_EXTENSION_NOT_PRESENT
  | ERROR_INCOMPATIBLE_DRIVER
  deriving DecidableEq, Repr

/-- The NUL character terminating C strings. -/
def nulChar : Char := Char.ofNat 0

/-- `CStr::from_ptr` on a native name buffer reads bytes up to (and not
including) the first NUL terminator; `to_str().to_owned()` then yields
the decoded `String` (the UTF-8 assumption of `expect("Invalid UTF-8")`
is taken as given, per the Vulkan identifier contract). -/
def decode_name (buf : List Char) : String :=
  ⟨buf.takeWhile (fun c => c ≠ nulChar)⟩

/-- `MissingExtensionsOrLayers`: the payload of a failed capability
validation, holding both lists (fields as in the Rust struct). -/
structure MissingExtensionsOrLayers where
  missing_extensions : List String
  missing_layers : List String
  deriving DecidableEq, Repr

/-- Accessor `MissingExtensionsOrLayers::missing_extensions()`:
`None` when the stored list is empty, otherwise a clone of it. -/
def MissingExtensionsOrLayers.missingExtensions
    (m : MissingExtensionsOrLayers) : Option (List String) :=
  if m.missing_extensions.isEmpty then none else some m.missing_extensions

/-- Accessor `MissingExtensionsOrLayers::missing_layers()`:
`None` when the stored list is empty, otherwise a clone of it. -/
def MissingExtensionsOrLayers.missingLayers
    (m : MissingExtensionsOrLayers) : Option (List String) :=
  if m.missing_layers.isEmpty then none else some m.missing_layers

/-- `InstanceError` as in `vulkan/mod.rs`. -/
inductive InstanceError where
  | OutOfMemory
  | MissingExtensionsOrLayers (err : MissingExtensionsOrLayers)
  | Other (err : VkResult)
  deriving DecidableEq, Repr

/-- `impl From<ash::vk::Result> for InstanceError`: both out-of-memory
codes collapse to `OutOfMemory`; any other code is preserved in
`Other`. -/
def instanceErrorFromVk : VkResult → InstanceError
  | .ERROR_OUT_OF_HOST_MEMORY => .OutOfMemory
  | .ERROR_OUT_OF_DEVICE_MEMORY => .OutOfMemory
  | e => .Other e

/-- `enumerate_layers`.  The native call
`LIBRARY.enumerate_instance_layer_properties()` is the explicit argument
`native`: either a native error code or the list of property name
buffers (each null-terminated).  The `?` operator routes a native error
through the `From` impl; on success every name buffer is decoded. -/
def enumerate_layers (native : Except VkResult (List (List Char))) :
    Except InstanceError (List String) :=
  match native with
  | .error e => .error (instanceErrorFromVk e)
  | .ok props => .ok (props.map decode_name)

/-- `enumerate_extensions`, identically shaped to `enumerate_layers`
over `LIBRARY.enumerate_instance_extension_properties()`. -/
def enumerate_extensions (native : Except VkResult (List (List Char))) :
    Except InstanceError (List String) :=
  match native with
  | .error e => .error (instanceErrorFromVk e)
  | .ok props => .ok (props.map decode_name)

/-- `InstanceBuilder`: accumulated requested extension and layer
names. -/
structure InstanceBuilder where
  enable_extensions : List String
  enable_layers : List String
  deriving DecidableEq, Repr

/-- `Instance::builder()`: starts with no extensions and no layers. -/
def instanceBuilderNew : InstanceBuilder :=
  { enable_extensions := [], enable_layers := [] }

/-- `InstanceBuilder::extension`: push the name onto the extension
list. -/
def InstanceBuilder.extension (b : InstanceBuilder) (e : String) :
    InstanceBuilder :=
  { b with enable_extensions := b.enable_extensions ++ [e] }

/-- `InstanceBuilder::layer`: push the name onto the layer list. -/
def InstanceBuilder.layer (b : InstanceBuilder) (l : String) :
    InstanceBuilder :=
  { b with enable_layers := b.enable_layers ++ [l] }

/-- The raw `ash::Instance` handle: a native pointer-like value, `0`
standing for the null handle (a successful `vkCreateInstance` never
yields it). -/
abbrev NativeHandle : Type := Nat

/-- `InstanceInner`: the wrapped raw instance handle (the payload whose
`Drop` impl calls `destroy_instance`; the field is named `instance` in
the source, a keyword here). -/
structure InstanceInner where
  instanceHandle : NativeHandle
  deriving DecidableEq, Repr

/-- `Instance`: shared-ownership wrapper (`Arc<InstanceInner>`); the
reference counting itself is modelled separately by `RcState`. -/
structure Instance where
  inner : InstanceInner
  deriving DecidableEq, Repr

/-- `Instance::handle()`: returns the underlying raw handle. -/
def Instance.handle (i : Instance) : NativeHandle :=
  i.inner.instanceHandle

/-- `CString::new`: fails (with `NulError`) when the string contains an
interior NUL byte, otherwise appends the terminator. -/
def cstring_new (s : String) : Option (List Char) :=
  if s.data.contains nulChar then none else some (s.data ++ [nulChar])

/-- `.map(CString::new).collect::<Result<Vec<_>, NulError>>()`: the
whole conversion fails as soon as one string has an interior NUL. -/
def collect_cstrings : List String → Option (List (List Char))
  | [] => some []
  | s :: rest =>
    match cstring_new s, collect_cstrings rest with
    | some c, some cs => some (c :: cs)
    | _, _ => none

/-- `InstanceBuilder::build`, instrumented: follows the source step by
step and additionally records (second component) whether the native
`create_instance` call was reached.  The native calls appear as
arguments: `layersNative` / `extsNative` are the outcomes of the two
property enumerations, `createNative` the outcome of
`LIBRARY.create_instance`.  The result `none` models a panic of the two
`expect` calls on the `CString` conversions; `some r` is the returned
`Result`. -/
def buildAux (b : InstanceBuilder)
    (layersNative extsNative : Except VkResult (List (List Char)))
    (createNative : Except VkResult NativeHandle) :
    Option (Except InstanceError Instance) × Bool :=
  match enumerate_layers layersNative with
  | .error e => (some (.error e), false)
  | .ok supported_layers =>
    match enumerate_extensions extsNative with
    | .error e => (some (.error e), false)
    | .ok supported_extensions =>
      let missing_extensions :=
        b.enable_extensions.filter (fun s => !supported_extensions.contains s)
      let missing_layers :=
        b.enable_layers.filter (fun s => !supported_layers.contains s)
      if !missing_extensions.isEmpty || !missing_layers.isEmpty then
        (some (.error (.MissingExtensionsOrLayers
          { missing_extensions := missing_extensions
            missing_layers := missing_layers })), false)
      else
        match collect_cstrings b.enable_extensions,
              collect_cstrings b.enable_layers with
        | some _, some _ =>
          match createNative with
          | .error e => (some (.error (instanceErrorFromVk e)), true)
          | .ok h => (some (.ok { inner := { instanceHandle := h } }), true)
        | _, _ => (none, false)

/-- `InstanceBuilder::build`: the returned value of `buildAux` (`none`
models a panic). -/
def build (b : InstanceBuilder)
    (layersNative extsNative : Except VkResult (List (List Char)))
    (createNative : Except VkResult NativeHandle) :
    Option (Except InstanceError Instance) :=
  (buildAux b layersNative extsNative createNative).1

/-! ## Reference counting of the `Instance` handle

`Instance` wraps `Arc<InstanceInner>`; `Instance::clone` increments the
atomic strong count, dropping an owner decrements it, and when the count
reaches zero the `Drop` impl of `InstanceInner` runs, invoking
`destroy_instance` once.  Owners are interchangeable (each release is
the same decrement regardless of which owner performs it), so a release
order over N+1 owners is any sequence of N+1 decrements. -/

/-- The observable state of `Arc<InstanceInner>`: the strong count and
how many times `destroy_instance` has run. -/
structure RcState where
  strong : Nat
  destroyCount : Nat
  deriving DecidableEq, Repr

/-- `Instance::clone` / `Arc::clone`: increments the strong count, no
native call. -/
def rcClone (s : RcState) : RcState :=
  { s with strong := s.strong + 1 }

/-- Dropping one owner: decrements the strong count; when the last owner
is released the `Drop` impl of `InstanceInner` invokes
`destroy_instance` (recorded in `destroyCount`). -/
def rcRelease (s : RcState) : RcState :=
  if s.strong = 1 then
    { strong := 0, destroyCount := s.destroyCount + 1 }
  else
    { s with strong := s.strong - 1 }

/-- `n` successive clones. -/
def rcCloneN : Nat → RcState → RcState
  | 0, s => s
  | n + 1, s => rcCloneN n (rcClone s)

/-- `n` successive owner releases. -/
def rcReleaseN : Nat → RcState → RcState
  | 0, s => s
  | n + 1, s => rcReleaseN n (rcRelease s)

/-! ## Claims about the format tables -/

/-- C3: the lookup returns `Some((B8G8R8A8_SRGB, true))` for `Argb8888`,
`Some((B8G8R8A8_SRGB, false))` for `Xrgb8888` (same native format,
boolean `false`), and `None` for every fourcc code with no table entry,
whatever the host endianness. -/
theorem fourcc_to_vk_argb_xrgb_unmapped :
    ∀ le : Bool,
      fourcc_to_vk le .Argb8888 = some (.B8G8R8A8_SRGB, true) ∧
      fourcc_to_vk le .Xrgb8888 = some (.B8G8R8A8_SRGB, false) ∧
      ([Fourcc.C8, .Rgb565, .Nv12, .Yuyv, .Argb2101010].all
        (fun f => (fourcc_to_vk le f).isNone)) = true := by
  decide

/-- C2 counterexample: the claim says the X-channel entry `Xrgb8888`
returns its nearest alpha-bearing native format together with the
boolean `true`; the table instead pairs `B8G8R8A8_SRGB` with `false`
(the boolean is the row's `alpha:` field, and an X format has no alpha
channel). -/
theorem xrgb8888_flag_counterexample :
    fourcc_to_vk true Fourcc.Xrgb8888 = some (VkFormat.B8G8R8A8_SRGB, false) ∧
    fourcc_to_vk true Fourcc.Xrgb8888 ≠ some (VkFormat.B8G8R8A8_SRGB, true) := by
  decide

/-- C2 amended: every X-channel format of the table (`Xrgb8888`,
`Xbgr8888`, `Rgbx8888`) maps to the same alpha-bearing native format as
its alpha-channel sibling, paired with the boolean `false` — the boolean
records whether the compositor format carries an alpha channel, so
`false` is what signals the renderer to disable alpha via a component
swizzle. -/
theorem x_formats_map_to_alpha_sibling :
    ∀ le : Bool,
      fourcc_to_vk le .Xrgb8888 = some (.B8G8R8A8_SRGB, false) ∧
      fourcc_to_vk le .Argb8888 = some (.B8G8R8A8_SRGB, true) ∧
      fourcc_to_vk le .Xbgr8888 = some (.R8G8B8A8_SRGB, false) ∧
      fourcc_to_vk le .Abgr8888 = some (.R8G8B8A8_SRGB, true) ∧
      fourcc_to_vk true .Rgbx8888 = some (.A8B8G8R8_SRGB_PACK32, false) ∧
      fourcc_to_vk true .Rgba8888 = some (.A8B8G8R8_SRGB_PACK32, true) := by
  decide

/-- C8: the packed 32-bit entries are endianness-dependent — on a
little-endian target `Rgba8888`/`Rgbx8888` resolve to
`A8B8G8R8_SRGB_PACK32`, on a big-endian target the same codes resolve
to `None`. -/
theorem pack32_entries_endianness :
    fourcc_to_vk true .Rgba8888 = some (.A8B8G8R8_SRGB_PACK32, true) ∧
    fourcc_to_vk true .Rgbx8888 = some (.A8B8G8R8_SRGB_PACK32, false) ∧
    fourcc_to_vk false .Rgba8888 = none ∧
    fourcc_to_vk false .Rgbx8888 = none := by
  decide

/-! ## Claims about error accessors and error-code mapping -/

/-- C9: `missing_extensions()` returns `None` iff the stored
missing-extensions list is empty and otherwise `Some` of exactly that
list; likewise `missing_layers()` for the missing-layers list. -/
theorem missing_accessors_spec :
    ∀ m : MissingExtensionsOrLayers,
      (m.missingExtensions = none ↔ m.missing_extensions = []) ∧
      (m.missing_extensions ≠ [] →
        m.missingExtensions = some m.missing_extensions) ∧
      (m.missingLayers = none ↔ m.missing_layers = []) ∧
      (m.missing_layers ≠ [] → m.missingLayers = some m.missing_layers) := by
  intro m
  refine ⟨?_, ?_, ?_, ?_⟩ <;>
    simp [MissingExtensionsOrLayers.missingExtensions,
      MissingExtensionsOrLayers.missingLayers, List.isEmpty_iff]

theorem missing_accessors_spec_witness :
    MissingExtensionsOrLayers.missingExtensions ⟨["B"], []⟩ = some ["B"] ∧
    MissingExtensionsOrLayers.missingLayers ⟨["B"], []⟩ = none :=
  ⟨(missing_accessors_spec ⟨["B"], []⟩).2.1 (by decide),
   ((missing_accessors_spec ⟨["B"], []⟩).2.2.1).mpr rfl⟩

/-- C5 counterexample: the claim says the error returned by a failed
enumeration preserves the specific native code and keeps distinct codes
distinguishable; but the two distinct out-of-memory codes produce the
very same `InstanceError::OutOfMemory`, so neither is preserved. -/
theorem oom_codes_collapsed_counterexample :
    enumerate_layers (.error VkResult.ERROR_OUT_OF_HOST_MEMORY) =
      enumerate_layers (.error VkResult.ERROR_OUT_OF_DEVICE_MEMORY) ∧
    VkResult.ERROR_OUT_OF_HOST_MEMORY ≠ VkResult.ERROR_OUT_OF_DEVICE_MEMORY ∧
    enumerate_layers (.error VkResult.ERROR_OUT_OF_HOST_MEMORY) =
      .error InstanceError.OutOfMemory :=
  ⟨rfl, by decide, rfl⟩

/-- C5 amended: a failed enumeration returns the native code mapped
through the `From` impl — every code other than the two out-of-memory
codes is preserved verbatim inside `Other` (hence distinguishable),
while `ERROR_OUT_OF_HOST_MEMORY` and `ERROR_OUT_OF_DEVICE_MEMORY` are
both collapsed to the distinguished `OutOfMemory` variant. -/
theorem enumeration_error_code_mapping :
    ∀ e : VkResult,
      enumerate_layers (.error e) = .error (instanceErrorFromVk e) ∧
      enumerate_extensions (.error e) = .error (instanceErrorFromVk e) ∧
      (e ≠ .ERROR_OUT_OF_HOST_MEMORY → e ≠ .ERROR_OUT_OF_DEVICE_MEMORY →
        instanceErrorFromVk e = .Other e) ∧
      (e = .ERROR_OUT_OF_HOST_MEMORY ∨ e = .ERROR_OUT_OF_DEVICE_MEMORY →
        instanceErrorFromVk e = .OutOfMemory) := by
  intro e
  cases e <;> refine ⟨rfl, rfl, ?_, ?_⟩ <;> simp [instanceErrorFromVk]

theorem enumeration_error_code_mapping_witness :
    instanceErrorFromVk VkResult.ERROR_INITIALIZATION_FAILED =
      InstanceError.Other VkResult.ERROR_INITIALIZATION_FAILED ∧
    instanceErrorFromVk VkResult.ERROR_OUT_OF_HOST_MEMORY =
      InstanceError.OutOfMemory :=
  ⟨(enumeration_error_code_mapping
      VkResult.ERROR_INITIALIZATION_FAILED).2.2.1 (by decide) (by decide),
   (enumeration_error_code_mapping
      VkResult.ERROR_OUT_OF_HOST_MEMORY).2.2.2 (Or.inl rfl)⟩

/-! ## Helper lemmas about decoding, NUL bytes and the validation path -/

/-- A name decoded by `CStr::from_ptr` never contains an interior NUL:
decoding stops at the first NUL byte. -/
theorem decode_name_no_nul (buf : List Char) :
    (decode_name buf).data.contains nulChar = false := by
  have h : nulChar ∉ (decode_name buf).data := by
    intro hmem
    have hp := List.mem_takeWhile_imp (p := fun c => c ≠ nulChar)
      (l := buf) hmem
    simp at hp
  simp [h]

/-- Every member of an enumerated (decoded) name list is NUL-free. -/
theorem mem_decoded_no_nul {x : String} {bufs : List (List Char)}
    (hx : x ∈ bufs.map decode_name) :
    x.data.contains nulChar = false := by
  obtain ⟨buf, _, rfl⟩ := List.mem_map.mp hx
  exact decode_name_no_nul buf

/-- A requested name absent from the availability list makes the
`filter` of non-present names non-empty. -/
theorem missing_filter_not_empty {l avail : List String} {x : String}
    (hx : x ∈ l) (hnot : x ∉ avail) :
    (l.filter (fun s => !avail.contains s)).isEmpty = false := by
  rw [Bool.eq_false_iff]
  intro hemp
  rw [List.isEmpty_iff, List.filter_eq_nil_iff] at hemp
  exact hemp x hx (by simp [hnot])

/-- When every string of the list is NUL-free, the
`.map(CString::new).collect::<Result<…>>()` step succeeds. -/
theorem collect_cstrings_total (l : List String)
    (h : ∀ s ∈ l, s.data.contains nulChar = false) :
    ∃ cs, collect_cstrings l = some cs := by
  induction l with
  | nil => exact ⟨[], rfl⟩
  | cons s rest ih =>
    obtain ⟨cs, hcs⟩ := ih fun x hx => h x (List.mem_cons_of_mem _ hx)
    have hs : nulChar ∉ s.data := by
      simpa using h s (List.mem_cons_self _ _)
    exact ⟨(s.data ++ [nulChar]) :: cs, by
      simp [collect_cstrings, cstring_new, hs, hcs]⟩

/-- Core validation-failure lemma: when some requested extension or
layer is absent from the corresponding decoded availability list,
`buildAux` returns the `MissingExtensionsOrLayers` error made of the two
`filter`s, and the native creation call is not reached. -/
theorem buildAux_missing (b : InstanceBuilder) (lb eb : List (List Char))
    (c : Except VkResult NativeHandle)
    (h : (∃ x ∈ b.enable_extensions, x ∉ eb.map decode_name) ∨
         (∃ x ∈ b.enable_layers, x ∉ lb.map decode_name)) :
    buildAux b (.ok lb) (.ok eb) c =
      (some (.error (.MissingExtensionsOrLayers
        { missing_extensions :=
            b.enable_extensions.filter
              (fun s => !((eb.map decode_name).contains s))
          missing_layers :=
            b.enable_layers.filter
              (fun s => !((lb.map decode_name).contains s)) })), false) := by
  have hcond :
      (!((b.enable_extensions.filter
          (fun s => !((eb.map decode_name).contains s))).isEmpty) ||
       !((b.enable_layers.filter
          (fun s => !((lb.map decode_name).contains s))).isEmpty)) = true := by
    rcases h with ⟨x, hx, hnot⟩ | ⟨x, hx, hnot⟩
    · simp only [missing_filter_not_empty hx hnot, Bool.not_false,
        Bool.true_or]
    · simp only [missing_filter_not_empty hx hnot, Bool.not_false,
        Bool.or_true]
  simp only [buildAux, enumerate_layers, enumerate_extensions, hcond]
  simp

/-- Core validation-success lemma: when every requested extension and
layer occurs in the corresponding decoded availability list, `buildAux`
reaches the native `create_instance` call and returns its mapped
outcome. -/
theorem buildAux_success (b : InstanceBuilder) (lb eb : List (List Char))
    (c : Except VkResult NativeHandle)
    (hext : ∀ x ∈ b.enable_extensions, x ∈ eb.map decode_name)
    (hlay : ∀ x ∈ b.enable_layers, x ∈ lb.map decode_name) :
    buildAux b (.ok lb) (.ok eb) c =
      (match c with
       | .error e => (some (.error (instanceErrorFromVk e)), true)
       | .ok n => (some (.ok ⟨⟨n⟩⟩), true)) := by
  have hme : b.enable_extensions.filter
      (fun s => !((eb.map decode_name).contains s)) = [] :=
    List.filter_eq_nil_iff.mpr fun a ha => by simp [hext a ha]
  have hml : b.enable_layers.filter
      (fun s => !((lb.map decode_name).contains s)) = [] :=
    List.filter_eq_nil_iff.mpr fun a ha => by simp [hlay a ha]
  obtain ⟨ce, hce⟩ := collect_cstrings_total b.enable_extensions
    fun s hs => mem_decoded_no_nul (hext s hs)
  obtain ⟨cl, hcl⟩ := collect_cstrings_total b.enable_layers
    fun s hs => mem_decoded_no_nul (hlay s hs)
  simp only [buildAux, enumerate_layers, enumerate_extensions, hme, hml,
    hce, hcl, List.isEmpty_nil, Bool.not_true, Bool.or_self]
  simp

/-! ## Claims about `InstanceBuilder::build` -/

/-- C1: whenever at least one requested name is absent from the
corresponding enumerated availability set, `build` fails with the
`MissingExtensionsOrLayers` error whose missing-extensions list is
exactly the order- and duplicate-preserving sublist of the requested
extensions not contained in the available extension list (a `filter`),
whose missing-layers list is the same for layers, and which carries both
lists even when only one kind is missing. -/
theorem build_missing_capabilities (b : InstanceBuilder)
    (lb eb : List (List Char)) (c : Except VkResult NativeHandle)
    (h : (∃ x ∈ b.enable_extensions, x ∉ eb.map decode_name) ∨
         (∃ x ∈ b.enable_layers, x ∉ lb.map decode_name)) :
    build b (.ok lb) (.ok eb) c =
      some (.error (.MissingExtensionsOrLayers
        { missing_extensions := b.enable_extensions.filter
            (fun s => !((eb.map decode_name).contains s))
          missing_layers := b.enable_layers.filter
            (fun s => !((lb.map decode_name).contains s)) })) := by
  unfold build
  rw [buildAux_missing b lb eb c h]

theorem build_missing_capabilities_witness :
    build ⟨["A", "A"], []⟩ (.ok []) (.ok []) (.ok 1) =
      some (.error (.MissingExtensionsOrLayers ⟨["A", "A"], []⟩)) := by
  rw [build_missing_capabilities ⟨["A", "A"], []⟩ [] [] (.ok 1)
    (Or.inl ⟨"A", by simp, by simp⟩)]
  rfl

/-- C6: within one `build` call, validation strictly precedes native
construction — on every execution returning the
`MissingExtensionsOrLayers` error, the native `create_instance` call is
never reached (second component of `buildAux` is `false`), so no native
resource is created on that path. -/
theorem missing_capabilities_no_native_creation
    (b : InstanceBuilder) (ln en : Except VkResult (List (List Char)))
    (c : Except VkResult NativeHandle) (m : MissingExtensionsOrLayers)
    (h : (buildAux b ln en c).1 =
      some (.error (.MissingExtensionsOrLayers m))) :
    (buildAux b ln en c).2 = false := by
  cases ln with
  | error e => rfl
  | ok lbs =>
    cases en with
    | error e => rfl
    | ok ebs =>
      by_cases habs :
          (∃ x ∈ b.enable_extensions, x ∉ ebs.map decode_name) ∨
          (∃ x ∈ b.enable_layers, x ∉ lbs.map decode_name)
      · rw [buildAux_missing b lbs ebs c habs]
      · push_neg at habs
        rw [buildAux_success b lbs ebs c habs.1 habs.2] at h ⊢
        cases c with
        | error e => cases e <;> simp [instanceErrorFromVk] at h
        | ok n => simp at h

theorem missing_capabilities_no_native_creation_witness :
    (buildAux ⟨["A"], []⟩ (.ok []) (.ok []) (.ok 1)).2 = false :=
  missing_capabilities_no_native_creation ⟨["A"], []⟩ (.ok []) (.ok [])
    (.ok 1) ⟨["A"], []⟩ (by
      rw [buildAux_missing ⟨["A"], []⟩ [] [] (.ok 1)
        (Or.inl ⟨"A", by simp, by simp⟩)]
      rfl)

/-- C7: when every requested extension and layer name is contained in
the corresponding enumerated availability set, `build` does not fail
with `MissingExtensionsOrLayers`: it reaches native creation, and —
given that the native call succeeds with the (non-null) handle it
guarantees — returns the `Instance` wrapping that handle, whose raw
handle is non-null. -/
theorem build_success (b : InstanceBuilder) (lb eb : List (List Char))
    (n : NativeHandle)
    (hext : ∀ x ∈ b.enable_extensions, x ∈ eb.map decode_name)
    (hlay : ∀ x ∈ b.enable_layers, x ∈ lb.map decode_name)
    (hn : n ≠ 0) :
    build b (.ok lb) (.ok eb) (.ok n) = some (.ok ⟨⟨n⟩⟩) ∧
      (Instance.mk ⟨n⟩).handle ≠ 0 := by
  constructor
  · unfold build
    rw [buildAux_success b lb eb (.ok n) hext hlay]
  · exact hn

theorem build_success_witness :
    build ⟨["A"], []⟩ (.ok []) (.ok [['A', Char.ofNat 0]]) (.ok 1) =
      some (.ok ⟨⟨1⟩⟩) ∧ (Instance.mk ⟨1⟩).handle ≠ 0 :=
  build_success ⟨["A"], []⟩ [] [['A', Char.ofNat 0]] 1
    (by decide) (by decide) (by decide)

/-- C10: the `expect` panics on the `CString` conversions in `build` are
unreachable — `build` never panics (never returns `none` in this model),
because every enumerated available name is decoded from a
null-terminated C string and contains no interior NUL, so a requested
name with an interior NUL matches no available name and `build` returns
the `MissingExtensionsOrLayers` error during validation, before any name
conversion is attempted. -/
theorem cstring_expects_unreachable
    (b : InstanceBuilder) (ln en : Except VkResult (List (List Char)))
    (c : Except VkResult NativeHandle) :
    build b ln en c ≠ none ∧
    (∀ lb eb, ln = .ok lb → en = .ok eb →
      ((∃ x ∈ b.enable_extensions, x.data.contains nulChar = true) ∨
       (∃ x ∈ b.enable_layers, x.data.contains nulChar = true)) →
      ∃ m, build b ln en c =
        some (.error (.MissingExtensionsOrLayers m))) := by
  constructor
  · cases ln with
    | error e => simp [build, buildAux, enumerate_layers]
    | ok lbs =>
      cases en with
      | error e =>
        simp [build, buildAux, enumerate_layers, enumerate_extensions]
      | ok ebs =>
        by_cases habs :
            (∃ x ∈ b.enable_extensions, x ∉ ebs.map decode_name) ∨
            (∃ x ∈ b.enable_layers, x ∉ lbs.map decode_name)
        · unfold build
          rw [buildAux_missing b lbs ebs c habs]
          simp
        · push_neg at habs
          unfold build
          rw [buildAux_success b lbs ebs c habs.1 habs.2]
          cases c <;> simp
  · intro lbs ebs hln hen hnul
    subst hln
    subst hen
    have habs :
        (∃ x ∈ b.enable_extensions, x ∉ ebs.map decode_name) ∨
        (∃ x ∈ b.enable_layers, x ∉ lbs.map decode_name) := by
      rcases hnul with ⟨x, hx, hnulx⟩ | ⟨x, hx, hnulx⟩
      · exact Or.inl ⟨x, hx, fun hmem =>
          by rw [mem_decoded_no_nul hmem] at hnulx; exact Bool.false_ne_true hnulx⟩
      · exact Or.inr ⟨x, hx, fun hmem =>
          by rw [mem_decoded_no_nul hmem] at hnulx; exact Bool.false_ne_true hnulx⟩
    exact ⟨_, by unfold build; rw [buildAux_missing b lbs ebs c habs]⟩

theorem cstring_expects_unreachable_witness :
    build ⟨[⟨[Char.ofNat 0]⟩], []⟩ (.ok []) (.ok []) (.ok 1) ≠ none :=
  (cstring_expects_unreachable ⟨[⟨[Char.ofNat 0]⟩], []⟩ (.ok []) (.ok [])
    (.ok 1)).1

/-! ## Claim about `Instance` reference counting -/

/-- `n` clones add `n` to the strong count and touch nothing else. -/
theorem rcCloneN_apply (n : Nat) (s : RcState) :
    rcCloneN n s = ⟨s.strong + n, s.destroyCount⟩ := by
  induction n generalizing s with
  | zero => rfl
  | succ n ih =>
    show rcCloneN n (rcClone s) = _
    rw [ih]
    simp [rcClone]
    omega

/-- Releasing fewer owners than exist never destroys: strictly fewer
releases than the strong count leave the destroy count untouched. -/
theorem rcReleaseN_lt (k m d : Nat) (hk : k < m) :
    rcReleaseN k ⟨m, d⟩ = ⟨m - k, d⟩ := by
  induction k generalizing m with
  | zero => rfl
  | succ k ih =>
    show rcReleaseN k (rcRelease ⟨m, d⟩) = _
    have hm : m ≠ 1 := by omega
    have hr : rcRelease ⟨m, d⟩ = ⟨m - 1, d⟩ := by simp [rcRelease, hm]
    rw [hr, ih (m - 1) (by omega)]
    simp
    omega

/-- Releasing exactly as many owners as exist destroys exactly once and
ends with no owner. -/
theorem rcReleaseN_exact (m : Nat) : ∀ d, rcReleaseN (m + 1) ⟨m + 1, d⟩ = ⟨0, d + 1⟩ := by
  induction m with
  | zero => intro d; rfl
  | succ m ih =>
    intro d
    show rcReleaseN (m + 1) (rcRelease ⟨m + 2, d⟩) = _
    have hr : rcRelease ⟨m + 2, d⟩ = ⟨m + 1, d⟩ := by simp [rcRelease]
    rw [hr, ih d]

/-- C4: starting from a freshly built `Instance` (strong count 1, no
destruction yet), cloning `N` times and then releasing the `N + 1`
owners — each release is the same interchangeable decrement, so the
order of release is immaterial — invokes `destroy_instance` exactly
once, and only after the last release: after any `k ≤ N` releases the
destroy count is still `0`, and after all `N + 1` releases the state is
exactly no owner and one destruction. -/
theorem context_destroy_exactly_once :
    ∀ N k : Nat, k ≤ N →
      (rcReleaseN k (rcCloneN N ⟨1, 0⟩)).destroyCount = 0 ∧
      rcReleaseN (N + 1) (rcCloneN N ⟨1, 0⟩) = ⟨0, 1⟩ := by
  intro N k hk
  have hcl : rcCloneN N ⟨1, 0⟩ = ⟨N + 1, 0⟩ := by
    rw [rcCloneN_apply]
    simp [Nat.add_comm]
  constructor
  · rw [hcl, rcReleaseN_lt k (N + 1) 0 (by omega)]
  · rw [hcl, rcReleaseN_exact N 0]

theorem context_destroy_exactly_once_witness :
    (rcReleaseN 3 (rcCloneN 3 ⟨1, 0⟩)).destroyCount = 0 ∧
    rcReleaseN 4 (rcCloneN 3 ⟨1, 0⟩) = ⟨0, 1⟩ :=
  context_destroy_exactly_once 3 3 (by decide)
